import Mathlib

/-!
Shallow embedding of the budget-constrained retry scheduler of
`pytest_mergify/flaky_detection.py` (the `FlakyDetector` class), together
with proofs about its behaviour.

Modelling conventions:
* `datetime.timedelta` and `datetime.datetime` values are modelled as
  rationals (`ℚ`), all in one common time unit; Python float factors such
  as the budget ratios and the `0.9` timeout safety margin are modelled as
  exact rationals.
* Python dictionaries (`_test_metrics`, the setup-state `stack` and the
  `_suspended_item_finalizers` store) are modelled as association lists,
  looked up by their first matching key; assignment replaces the first
  matching entry in place, or appends when the key is absent, which is
  Python's `dict` update semantics for the states the detector builds
  (keys are unique).
* `int(x)` on a Python float truncates toward zero, modelled by
  `ratTrunc`.
* Logging (`log_messages`) is pure bookkeeping with no effect on any
  computed value and is omitted from the state.
-/

namespace PytestMergify

/-- The two operating modes of the detector (`mode` literal in the source). -/
inductive Mode
  | new
  | unhealthy
deriving DecidableEq, Repr

/-- `_FlakyDetectionContext`: the record fetched once from the server.
Durations with an `_ms` suffix are integers of milliseconds, as in the
source; the derived `timedelta` properties below convert them into the
common rational time unit (milliseconds). -/
structure FlakyDetectionContext where
  budget_ratio_for_new_tests : ℚ
  budget_ratio_for_unhealthy_tests : ℚ
  existing_test_names : List String
  existing_tests_mean_duration_ms : ℤ
  unhealthy_test_names : List String
  max_test_execution_count : ℤ
  max_test_name_length : ℕ
  min_budget_duration_ms : ℤ
  min_test_execution_count : ℤ
deriving DecidableEq, Repr

/-- Property `existing_tests_mean_duration`: the mean duration as a
`timedelta` (here: a rational number of milliseconds). -/
def FlakyDetectionContext.existing_tests_mean_duration
    (c : FlakyDetectionContext) : ℚ :=
  (c.existing_tests_mean_duration_ms : ℚ)

/-- Property `min_budget_duration`: the minimum budget as a `timedelta`. -/
def FlakyDetectionContext.min_budget_duration
    (c : FlakyDetectionContext) : ℚ :=
  (c.min_budget_duration_ms : ℚ)

/-- `_TestMetrics`: per-test mutable record of timing and rerun
bookkeeping. Durations are rationals, the deadline is an optional
timestamp. -/
structure TestMetrics where
  initial_setup_duration : ℚ := 0
  initial_call_duration : ℚ := 0
  initial_teardown_duration : ℚ := 0
  is_processed : Bool := false
  rerun_count : ℤ := 0
  scheduled_rerun_count : ℤ := 0
  deadline : Option ℚ := none
  prevented_timeout : Bool := false
  total_duration : ℚ := 0
deriving DecidableEq, Repr

/-- Property `initial_duration`: the duration of the initial run of the
test including the 3 phases of the protocol (setup, call, teardown). -/
def TestMetrics.initial_duration (m : TestMetrics) : ℚ :=
  m.initial_setup_duration + m.initial_call_duration + m.initial_teardown_duration

/-- The fields of `_pytest.reports.TestReport` the detector reads:
the test identifier, the outcome, the protocol phase (`report.when`) and
the duration of that phase. -/
structure TestReport where
  nodeid : String
  outcome : String
  phase : String
  duration : ℚ
deriving DecidableEq, Repr

/-- `_TestMetrics.fill_from_report`: record the phase duration into the
matching `initial_*` slot when that slot is still zero (Python falsiness
of `timedelta`), bump `rerun_count` on every `call` phase, and accumulate
`total_duration`. -/
def TestMetrics.fill_from_report (m : TestMetrics) (report : TestReport) :
    TestMetrics :=
  let duration := report.duration
  let m :=
    if report.phase = "setup" ∧ m.initial_setup_duration = 0 then
      { m with initial_setup_duration := duration }
    else if report.phase = "call" ∧ m.initial_call_duration = 0 then
      { m with initial_call_duration := duration }
    else if report.phase = "teardown" ∧ m.initial_teardown_duration = 0 then
      { m with initial_teardown_duration := duration }
    else m
  let m :=
    if report.phase = "call" then { m with rerun_count := m.rerun_count + 1 }
    else m
  { m with total_duration := m.total_duration + duration }

/-- First value bound to the given key in an association list (Python
`dict` lookup for the unique-key states the detector builds). -/
def lookupKey {β : Type} (k : String) : List (String × β) → Option β
  | [] => none
  | p :: ps => if p.1 = k then some p.2 else lookupKey k ps

/-- Python `dict` assignment `d[k] = v`: replace the first entry for the
key in place, or append a fresh entry when the key is absent. -/
def setKey {β : Type} (k : String) (v : β) : List (String × β) → List (String × β)
  | [] => [(k, v)]
  | p :: ps => if p.1 = k then (k, v) :: ps else p :: setKey k v ps

/-- The mutable state of a `FlakyDetector` instance.  The constructor
fields `token`, `url` and `full_repository_name` only feed the HTTP
fetch and the error message, so they are kept as opaque strings. -/
structure FlakyDetector where
  token : String := ""
  url : String := ""
  full_repository_name : String := ""
  mode : Mode
  context : FlakyDetectionContext
  global_deadline : Option ℚ := none
  test_metrics : List (String × TestMetrics) := []
  over_length_tests : List String := []
deriving DecidableEq, Repr

/-- Python `int(x)` applied to the float quotient of two `timedelta`
values: truncation toward zero (`Int.tdiv` of the numerator by the
positive denominator). -/
def ratTrunc (q : ℚ) : ℤ :=
  q.num.tdiv (q.den : ℤ)

/-- `FlakyDetector._get_normalized_rerun_count`: divide the per-test
budget by the initial duration (zero-duration tests get the maximum
directly), cap at `max_test_execution_count`, and force any result below
`min_test_execution_count` down to zero. -/
def FlakyDetector.get_normalized_rerun_count (d : FlakyDetector)
    (budget_per_test initial_duration : ℚ) : ℤ :=
  let count : ℤ :=
    if initial_duration = 0 then d.context.max_test_execution_count
    else ratTrunc (budget_per_test / initial_duration)
  let result := min count d.context.max_test_execution_count
  if result < d.context.min_test_execution_count then 0 else result

/-- Validation performed at the end of `FlakyDetector._fetch_context`:
the HTTP request and JSON decoding are external effects, and `result` is
the decoded `_FlakyDetectionContext`; in mode `new` an empty
`existing_test_names` list raises `RuntimeError`, otherwise the context
is returned. -/
def fetch_context_validate (mode : Mode) (result : FlakyDetectionContext) :
    Except String FlakyDetectionContext :=
  if mode = Mode.new ∧ result.existing_test_names.length = 0 then
    Except.error "No existing tests found"
  else
    Except.ok result

/-- `FlakyDetector.try_fill_metrics_from_report`: returns whether the
report was recorded, together with the updated detector state.  A report
is ignored when its outcome is not failed/passed/rerun, when the test is
not eligible for the current mode, or when the test name is over-length
(the latter also records the test in `_over_length_tests`).  Otherwise
the metrics entry is created if needed (`dict.setdefault`) and filled. -/
def FlakyDetector.try_fill_metrics_from_report (d : FlakyDetector)
    (report : TestReport) : Bool × FlakyDetector :=
  if report.outcome ∉ (["failed", "passed", "rerun"] : List String) then
    (false, d)
  else
    let test := report.nodeid
    if d.mode = Mode.new ∧ test ∈ d.context.existing_test_names then
      (false, d)
    else if d.mode = Mode.unhealthy ∧ test ∉ d.context.unhealthy_test_names then
      (false, d)
    else if d.context.max_test_name_length < test.length then
      (false, { d with
        over_length_tests :=
          if test ∈ d.over_length_tests then d.over_length_tests
          else d.over_length_tests ++ [test] })
    else
      let metrics := (lookupKey test d.test_metrics).getD {}
      let metrics := metrics.fill_from_report report
      (true, { d with test_metrics := setKey test metrics d.test_metrics })

/-- `FlakyDetector._count_remaining_tests`: the length of the mode's
context test list minus the number of tracked tests already marked
`is_processed`, clamped from below at 1. -/
def FlakyDetector.count_remaining_tests (d : FlakyDetector) : ℤ :=
  let tests :=
    match d.mode with
    | Mode.new => d.context.existing_test_names
    | Mode.unhealthy => d.context.unhealthy_test_names
  let already_processed_tests :=
    (d.test_metrics.filter (fun p => p.2.is_processed)).length
  max ((tests.length : ℤ) - (already_processed_tests : ℤ)) 1

/-- `FlakyDetector._get_duration_before_test_deadline`: time left until
the test's deadline, clamped from below at the zero duration; a test
without a deadline yields the zero duration.  The source indexes
`self._test_metrics[test]` directly (a `KeyError` on an untracked test);
every caller looks the test up first, and the absent case is modelled
here with the default (deadline-free) metrics, which also yields zero. -/
def FlakyDetector.get_duration_before_test_deadline (d : FlakyDetector)
    (now : ℚ) (test : String) : ℚ :=
  let metrics := (lookupKey test d.test_metrics).getD {}
  match metrics.deadline with
  | none => 0
  | some deadline => max (deadline - now) 0

/-- `FlakyDetector.get_rerun_count_for_test`: for a tracked test, divide
the remaining duration before its deadline by `_count_remaining_tests`,
normalize it against the test's initial duration, then mark the test as
processed and record the scheduled rerun count.  Untracked tests get 0
and the state is unchanged. -/
def FlakyDetector.get_rerun_count_for_test (d : FlakyDetector) (now : ℚ)
    (test : String) : ℤ × FlakyDetector :=
  match lookupKey test d.test_metrics with
  | none => (0, d)
  | some metrics =>
    let budget_per_test :=
      d.get_duration_before_test_deadline now test /
        (d.count_remaining_tests : ℚ)
    let result := d.get_normalized_rerun_count budget_per_test
      metrics.initial_duration
    let metrics := { metrics with
      is_processed := true
      scheduled_rerun_count := result }
    (result, { d with test_metrics := setKey test metrics d.test_metrics })

/-- `FlakyDetector.should_abort_reruns`: true iff the test is tracked,
has a deadline, and `now` plus its initial duration reaches or passes
that deadline. -/
def FlakyDetector.should_abort_reruns (d : FlakyDetector) (now : ℚ)
    (test : String) : Bool :=
  match lookupKey test d.test_metrics with
  | none => false
  | some metrics =>
    match metrics.deadline with
    | none => false
    | some deadline =>
      let projected_completion := now + metrics.initial_duration
      decide (deadline ≤ projected_completion)

/-- `FlakyDetector._get_budget_duration`: the mode's budget ratio times
the projected total duration of the existing tests, floored at
`min_budget_duration`. -/
def FlakyDetector.get_budget_duration (d : FlakyDetector) : ℚ :=
  let total_duration :=
    d.context.existing_tests_mean_duration *
      (d.context.existing_test_names.length : ℚ)
  let ratio :=
    match d.mode with
    | Mode.new => d.context.budget_ratio_for_new_tests
    | Mode.unhealthy => d.context.budget_ratio_for_unhealthy_tests
  max (ratio * total_duration) d.context.min_budget_duration

/-- `FlakyDetector.set_global_deadline`: the global deadline is the
current time plus the budget duration. -/
def FlakyDetector.set_global_deadline (d : FlakyDetector) (now : ℚ) :
    FlakyDetector :=
  { d with global_deadline := some (now + d.get_budget_duration) }

/-- `FlakyDetector.set_test_deadline`: copy the global deadline onto the
test's metrics; when a truthy external timeout is supplied (Python
`if not timeout` treats both `None` and the zero `timedelta` as absent),
compute the 10%-margin deadline `now + timeout * 0.9` and adopt it, with
`prevented_timeout := true`, when the current deadline is absent or the
timeout deadline is strictly earlier. -/
def FlakyDetector.set_test_deadline (d : FlakyDetector) (now : ℚ)
    (test : String) (timeout : Option ℚ) : FlakyDetector :=
  match lookupKey test d.test_metrics with
  | none => d
  | some metrics =>
    let metrics := { metrics with deadline := d.global_deadline }
    let keep : FlakyDetector :=
      { d with test_metrics := setKey test metrics d.test_metrics }
    match timeout with
    | none => keep
    | some t =>
      if t = 0 then keep
      else
        let safe_timeout := t * (9 / 10)
        let timeout_deadline := now + safe_timeout
        let tightened_metrics := { metrics with
          deadline := some timeout_deadline
          prevented_timeout := true }
        let tightened : FlakyDetector :=
          { d with test_metrics := setKey test tightened_metrics d.test_metrics }
        match metrics.deadline with
        | none => tightened
        | some current => if timeout_deadline < current then tightened else keep

/-- `FlakyDetector.is_last_rerun_for_test`: true iff the test is tracked,
has a non-zero schedule, and `rerun_count` equals the schedule plus the
initial execution. -/
def FlakyDetector.is_last_rerun_for_test (d : FlakyDetector) (test : String) :
    Bool :=
  match lookupKey test d.test_metrics with
  | none => false
  | some metrics =>
    decide (metrics.scheduled_rerun_count ≠ 0 ∧
      metrics.scheduled_rerun_count + 1 = metrics.rerun_count)

/-! ### Fixture isolation: suspending and restoring finalizers

`item.session._setupstate.stack` maps scope nodes (the test item, its
class, module and the session) to pytest finalizer state.  Scope nodes
are modelled as natural numbers and the finalizer state attached to a
scope is an arbitrary type `β`; both maps are association lists with the
same dictionary semantics as above. -/

/-- First value bound to the given scope node in a setup-state map. -/
def lookupNode {β : Type} (k : ℕ) : List (ℕ × β) → Option β
  | [] => none
  | p :: ps => if p.1 = k then some p.2 else lookupNode k ps

/-- Python `del stack[k]`: drop the entry for the scope node (keys are
unique in the dictionary states pytest builds, so dropping every binding
of the key coincides with deleting its single entry). -/
def eraseNode {β : Type} (k : ℕ) : List (ℕ × β) → List (ℕ × β)
  | [] => []
  | p :: ps => if p.1 = k then eraseNode k ps else p :: eraseNode k ps

/-- The two dictionaries touched by the fixture isolation controller:
pytest's `session._setupstate.stack` and the detector's
`_suspended_item_finalizers` store. -/
structure SetupStacks (β : Type) where
  stack : List (ℕ × β)
  suspended : List (ℕ × β)

/-- The loop body of `suspend_item_finalizers`: iterate over a snapshot
of the stack's keys; skip the item itself; record each other scope's
state in the suspended store unless already recorded, then delete it
from the stack.  (`stack[stacked_item]` cannot fail in the source, as
the snapshot keys are the stack's own distinct keys; the absent case is
modelled as recording nothing.) -/
def suspendLoop {β : Type} (item : ℕ) :
    List ℕ → List (ℕ × β) → List (ℕ × β) → List (ℕ × β) × List (ℕ × β)
  | [], stack, suspended => (stack, suspended)
  | stacked :: rest, stack, suspended =>
    if stacked = item then suspendLoop item rest stack suspended
    else
      let suspended :=
        match lookupNode stacked suspended with
        | some _ => suspended
        | none =>
          match lookupNode stacked stack with
          | some v => suspended ++ [(stacked, v)]
          | none => suspended
      suspendLoop item rest (eraseNode stacked stack) suspended

/-- `FlakyDetector.suspend_item_finalizers`: when the item is present in
the setup-state stack, suspend all finalizers except the ones at the
function (item) level. -/
def suspend_item_finalizers {β : Type} (item : ℕ) (s : SetupStacks β) :
    SetupStacks β :=
  match lookupNode item s.stack with
  | none => s
  | some _ =>
    let r := suspendLoop item (s.stack.map Prod.fst) s.stack s.suspended
    { stack := r.1, suspended := r.2 }

/-- Python `stack.update(suspended)`: entries of `stack` whose key also
occurs in `suspended` take the suspended value; keys only in `suspended`
are appended. -/
def dictUpdate {β : Type} (stack suspended : List (ℕ × β)) : List (ℕ × β) :=
  stack.map (fun p =>
      match lookupNode p.1 suspended with
      | some v => (p.1, v)
      | none => p) ++
    suspended.filter (fun p => (lookupNode p.1 stack).isNone)

/-- `FlakyDetector.restore_item_finalizers`: put every suspended entry
back into the setup-state stack and clear the suspended store. -/
def restore_item_finalizers {β : Type} (s : SetupStacks β) : SetupStacks β :=
  { stack := dictUpdate s.stack s.suspended, suspended := [] }

/-! ### Helper lemmas -/

/-- Truncation toward zero agrees with the floor on non-negative
rationals. -/
theorem ratTrunc_eq_floor (q : ℚ) (h : 0 ≤ q) : ratTrunc q = ⌊q⌋ := by
  rw [ratTrunc, Rat.floor_def]
  exact Int.tdiv_eq_ediv (Rat.num_nonneg.mpr h) (Int.ofNat_nonneg q.den)

/-- Truncation toward zero preserves non-negativity. -/
theorem ratTrunc_nonneg (q : ℚ) (h : 0 ≤ q) : 0 ≤ ratTrunc q :=
  Int.tdiv_nonneg (Rat.num_nonneg.mpr h) (Int.ofNat_nonneg q.den)

/-- Looking up a key just assigned yields the assigned value. -/
theorem lookupKey_setKey_self {β : Type} (k : String) (v : β)
    (l : List (String × β)) : lookupKey k (setKey k v l) = some v := by
  induction l with
  | nil => simp [setKey, lookupKey]
  | cons p ps ih =>
    by_cases h : p.1 = k
    · simp [setKey, lookupKey, h]
    · simp [setKey, lookupKey, h, ih]

/-! ### C1: normalized rerun count bounds -/

/-- C1. For a non-negative per-test budget and a positive initial
duration, `_get_normalized_rerun_count` returns either 0 or a value in
`[min_test_execution_count, max_test_execution_count]`, and whenever the
capped count `min(floor(budget / duration), max_test_execution_count)`
falls below `min_test_execution_count` the result is exactly 0. -/
theorem get_normalized_rerun_count_bounds (d : FlakyDetector)
    (budget_per_test initial_duration : ℚ) (hb : 0 ≤ budget_per_test)
    (hi : 0 < initial_duration) :
    (d.get_normalized_rerun_count budget_per_test initial_duration = 0 ∨
      (d.context.min_test_execution_count ≤
          d.get_normalized_rerun_count budget_per_test initial_duration ∧
        d.get_normalized_rerun_count budget_per_test initial_duration ≤
          d.context.max_test_execution_count)) ∧
    (min ⌊budget_per_test / initial_duration⌋ d.context.max_test_execution_count <
        d.context.min_test_execution_count →
      d.get_normalized_rerun_count budget_per_test initial_duration = 0) := by
  have hne : initial_duration ≠ 0 := ne_of_gt hi
  have hq : 0 ≤ budget_per_test / initial_duration := div_nonneg hb hi.le
  have hfl : ratTrunc (budget_per_test / initial_duration) =
      ⌊budget_per_test / initial_duration⌋ := ratTrunc_eq_floor _ hq
  simp only [FlakyDetector.get_normalized_rerun_count, if_neg hne, hfl]
  by_cases h : min ⌊budget_per_test / initial_duration⌋
      d.context.max_test_execution_count < d.context.min_test_execution_count
  · rw [if_pos h]
    exact ⟨Or.inl rfl, fun _ => rfl⟩
  · rw [if_neg h]
    exact ⟨Or.inr ⟨not_lt.mp h, min_le_right _ _⟩, fun hc => absurd hc h⟩

/-- C1 witness: a concrete instantiation. -/
def dW1 : FlakyDetector :=
  { mode := Mode.new
    context :=
      { budget_ratio_for_new_tests := 1/10
        budget_ratio_for_unhealthy_tests := 1/5
        existing_test_names := ["e1"]
        existing_tests_mean_duration_ms := 100
        unhealthy_test_names := []
        max_test_execution_count := 5
        max_test_name_length := 100
        min_budget_duration_ms := 0
        min_test_execution_count := 1 } }

/-- C1 witness: the bounds hold for budget 3 and duration 1. -/
theorem get_normalized_rerun_count_bounds_witness :
    dW1.get_normalized_rerun_count 3 1 = 0 ∨
      (dW1.context.min_test_execution_count ≤ dW1.get_normalized_rerun_count 3 1 ∧
        dW1.get_normalized_rerun_count 3 1 ≤ dW1.context.max_test_execution_count) :=
  (get_normalized_rerun_count_bounds dW1 3 1 (by norm_num) (by norm_num)).1

/-! ### C2: zero-duration tests -/

/-- C2 (amended): a zero-duration test receives exactly
`max_test_execution_count` retries, provided the context satisfies
`min_test_execution_count ≤ max_test_execution_count`; otherwise the
zeroing branch fires even for zero-duration tests. -/
theorem get_normalized_rerun_count_zero_duration (d : FlakyDetector)
    (budget_per_test : ℚ)
    (h : d.context.min_test_execution_count ≤ d.context.max_test_execution_count) :
    d.get_normalized_rerun_count budget_per_test 0 =
      d.context.max_test_execution_count := by
  simp only [FlakyDetector.get_normalized_rerun_count, if_true, min_self,
    eq_self_iff_true]
  rw [if_neg (not_lt.mpr h)]

/-- C2 counterexample context: `min_test_execution_count = 2` exceeds
`max_test_execution_count = 1`. -/
def dC2 : FlakyDetector :=
  { mode := Mode.new
    context :=
      { budget_ratio_for_new_tests := 1/10
        budget_ratio_for_unhealthy_tests := 1/5
        existing_test_names := ["e1"]
        existing_tests_mean_duration_ms := 100
        unhealthy_test_names := []
        max_test_execution_count := 1
        max_test_name_length := 100
        min_budget_duration_ms := 0
        min_test_execution_count := 2 } }

/-- C2 counterexample: with `min_test_execution_count = 2` and
`max_test_execution_count = 1`, a zero-duration test receives 0 rather
than `max_test_execution_count`. -/
theorem get_normalized_rerun_count_zero_duration_cex :
    dC2.get_normalized_rerun_count 5 0 ≠ dC2.context.max_test_execution_count := by
  decide

/-- C2 witness: with `min ≤ max` the zero-duration test gets the max. -/
theorem get_normalized_rerun_count_zero_duration_witness :
    dW1.get_normalized_rerun_count 7 0 = dW1.context.max_test_execution_count :=
  get_normalized_rerun_count_zero_duration dW1 7 (by decide)

/-! ### C3: budget duration and global deadline -/

/-- C3. The budget duration is
`max(ratio × existing_tests_mean_duration × count(existing_test_names),
min_budget_duration)` with the ratio selected by the mode, and
`set_global_deadline` sets the global deadline to `now` plus exactly
that amount. -/
theorem set_global_deadline_eq (d : FlakyDetector) (now : ℚ) :
    (d.mode = Mode.new →
      (d.set_global_deadline now).global_deadline =
        some (now + max (d.context.budget_ratio_for_new_tests *
            ((d.context.existing_tests_mean_duration_ms : ℚ) *
              (d.context.existing_test_names.length : ℚ)))
          ((d.context.min_budget_duration_ms : ℚ)))) ∧
    (d.mode = Mode.unhealthy →
      (d.set_global_deadline now).global_deadline =
        some (now + max (d.context.budget_ratio_for_unhealthy_tests *
            ((d.context.existing_tests_mean_duration_ms : ℚ) *
              (d.context.existing_test_names.length : ℚ)))
          ((d.context.min_budget_duration_ms : ℚ)))) := by
  constructor <;> intro h <;>
    simp [FlakyDetector.set_global_deadline, FlakyDetector.get_budget_duration,
      FlakyDetectionContext.existing_tests_mean_duration,
      FlakyDetectionContext.min_budget_duration, h]

/-- C3 witness: concrete deadline computation in mode `new`. -/
theorem set_global_deadline_eq_witness :
    (dW1.set_global_deadline 100).global_deadline =
      some (100 + max (dW1.context.budget_ratio_for_new_tests *
          ((dW1.context.existing_tests_mean_duration_ms : ℚ) *
            (dW1.context.existing_test_names.length : ℚ)))
        ((dW1.context.min_budget_duration_ms : ℚ))) :=
  (set_global_deadline_eq dW1 100).1 rfl

/-! ### C4: the per-test budget divisor -/

/-- C4 (amended). For a tracked test, `get_rerun_count_for_test` divides
the remaining duration before the test's deadline by
`max(count(mode's context test list) − count(tracked tests already
marked is_processed), 1)` — the denominator counts the mode's context
test list, not the tracked tests — and then marks the test as processed
and records the resulting `scheduled_rerun_count`. -/
theorem get_rerun_count_for_test_eq (d : FlakyDetector) (now : ℚ)
    (test : String) (m : TestMetrics)
    (hm : lookupKey test d.test_metrics = some m) :
    (d.get_rerun_count_for_test now test).1 =
      d.get_normalized_rerun_count
        (d.get_duration_before_test_deadline now test /
          ((max (((match d.mode with
              | Mode.new => d.context.existing_test_names
              | Mode.unhealthy => d.context.unhealthy_test_names).length : ℤ) -
                ((d.test_metrics.filter (fun p => p.2.is_processed)).length : ℤ))
              1 : ℤ) : ℚ))
        m.initial_duration ∧
    lookupKey test (d.get_rerun_count_for_test now test).2.test_metrics =
      some { m with
        is_processed := true
        scheduled_rerun_count := (d.get_rerun_count_for_test now test).1 } := by
  simp only [FlakyDetector.get_rerun_count_for_test, hm,
    FlakyDetector.count_remaining_tests]
  exact ⟨trivial, lookupKey_setKey_self _ _ _⟩

/-- C4 counterexample state: mode `new` with a single existing test in
the context, while two new tests are tracked and unprocessed. -/
def dC4 : FlakyDetector :=
  { mode := Mode.new
    context :=
      { budget_ratio_for_new_tests := 1/10
        budget_ratio_for_unhealthy_tests := 1/5
        existing_test_names := ["e1"]
        existing_tests_mean_duration_ms := 100
        unhealthy_test_names := []
        max_test_execution_count := 100
        max_test_name_length := 100
        min_budget_duration_ms := 0
        min_test_execution_count := 1 }
    global_deadline := some 10
    test_metrics :=
      [("x", { initial_call_duration := 3, deadline := some 10 }),
       ("y", { initial_call_duration := 3, deadline := some 10 })] }

/-- C4 counterexample: the code computes 3 reruns for test `x` (budget
10 divided by the 1 remaining context test), not the 1 rerun that
dividing by the 2 tracked not-yet-processed tests would give. -/
theorem get_rerun_count_for_test_divisor_cex :
    (dC4.get_rerun_count_for_test 0 "x").1 ≠
      dC4.get_normalized_rerun_count
        (dC4.get_duration_before_test_deadline 0 "x" /
          (((dC4.test_metrics.filter (fun p => !p.2.is_processed)).length : ℤ) : ℚ))
        ({ initial_call_duration := 3, deadline := some 10 : TestMetrics }).initial_duration := by
  have h1 : (dC4.get_rerun_count_for_test 0 "x").1 = 3 := by
    simp [dC4, FlakyDetector.get_rerun_count_for_test, lookupKey,
      FlakyDetector.get_duration_before_test_deadline,
      FlakyDetector.count_remaining_tests,
      FlakyDetector.get_normalized_rerun_count, TestMetrics.initial_duration,
      ratTrunc, max_def, min_def]
    norm_num
    decide
  have h2 : dC4.get_normalized_rerun_count
      (dC4.get_duration_before_test_deadline 0 "x" /
        (((dC4.test_metrics.filter (fun p => !p.2.is_processed)).length : ℤ) : ℚ))
      ({ initial_call_duration := 3, deadline := some 10 : TestMetrics }).initial_duration = 1 := by
    simp [dC4, lookupKey, FlakyDetector.get_duration_before_test_deadline,
      FlakyDetector.get_normalized_rerun_count, TestMetrics.initial_duration,
      ratTrunc, max_def, min_def]
    norm_num
    decide
  rw [h1, h2]
  decide

/-- C4 witness: the amended computation at a concrete tracked test. -/
theorem get_rerun_count_for_test_eq_witness :
    (dC4.get_rerun_count_for_test 0 "x").1 =
      dC4.get_normalized_rerun_count
        (dC4.get_duration_before_test_deadline 0 "x" /
          ((max (((match dC4.mode with
              | Mode.new => dC4.context.existing_test_names
              | Mode.unhealthy => dC4.context.unhealthy_test_names).length : ℤ) -
                ((dC4.test_metrics.filter (fun p => p.2.is_processed)).length : ℤ))
              1 : ℤ) : ℚ))
        ({ initial_call_duration := 3, deadline := some 10 : TestMetrics }).initial_duration :=
  (get_rerun_count_for_test_eq dC4 0 "x"
    { initial_call_duration := 3, deadline := some 10 } (by decide)).1

/-! ### C5: per-test deadline tightening -/

/-- C5. With metrics recorded for the test, a set global deadline `g`,
and a non-zero external timeout `t`, `set_test_deadline` sets the test's
deadline to `now + 0.9 × t` exactly when that instant is strictly
earlier than `g` (otherwise the deadline stays `g`), and
`prevented_timeout` becomes true exactly when this tightening occurs. -/
theorem set_test_deadline_spec (d : FlakyDetector) (now t g : ℚ)
    (test : String) (m : TestMetrics)
    (hm : lookupKey test d.test_metrics = some m)
    (hg : d.global_deadline = some g)
    (hp : m.prevented_timeout = false)
    (ht : t ≠ 0) :
    lookupKey test (d.set_test_deadline now test (some t)).test_metrics =
      some { m with
        deadline :=
          some (if now + t * (9 / 10) < g then now + t * (9 / 10) else g)
        prevented_timeout := decide (now + t * (9 / 10) < g) } := by
  simp only [FlakyDetector.set_test_deadline, hm, hg, if_neg ht]
  by_cases h : now + t * (9 / 10) < g
  · rw [if_pos h, lookupKey_setKey_self]
    simp [h]
  · rw [if_neg h, lookupKey_setKey_self, if_neg h, decide_eq_false h]
    cases m
    simp_all

/-- C5 witness state: one tracked test and a set global deadline. -/
def dW5 : FlakyDetector :=
  { mode := Mode.new
    context :=
      { budget_ratio_for_new_tests := 1/10
        budget_ratio_for_unhealthy_tests := 1/5
        existing_test_names := ["e1"]
        existing_tests_mean_duration_ms := 100
        unhealthy_test_names := []
        max_test_execution_count := 5
        max_test_name_length := 100
        min_budget_duration_ms := 0
        min_test_execution_count := 1 }
    global_deadline := some 100
    test_metrics := [("t", { initial_call_duration := 2, deadline := none })] }

/-- C5 witness: timeout 50 tightens the deadline of test `t` to
`0 + 50 × 0.9 = 45`, before the global deadline 100. -/
theorem set_test_deadline_spec_witness :
    lookupKey "t" (dW5.set_test_deadline 0 "t" (some 50)).test_metrics =
      some { ({ initial_call_duration := 2, deadline := none } : TestMetrics) with
        deadline :=
          some (if (0 : ℚ) + 50 * (9 / 10) < 100 then (0 : ℚ) + 50 * (9 / 10) else 100)
        prevented_timeout := decide ((0 : ℚ) + 50 * (9 / 10) < 100) } :=
  set_test_deadline_spec dW5 0 50 100 "t"
    { initial_call_duration := 2, deadline := none }
    (by decide) rfl rfl (by norm_num)

/-! ### C6: abort condition -/

/-- C6. `should_abort_reruns` returns true iff the test has recorded
metrics carrying a deadline and `now` plus the test's initial duration
reaches or passes that deadline; in particular it is false whenever the
test has no metrics or no deadline. -/
theorem should_abort_reruns_iff (d : FlakyDetector) (now : ℚ) (test : String) :
    d.should_abort_reruns now test = true ↔
      ∃ m deadline, lookupKey test d.test_metrics = some m ∧
        m.deadline = some deadline ∧ deadline ≤ now + m.initial_duration := by
  cases hm : lookupKey test d.test_metrics with
  | none => simp [FlakyDetector.should_abort_reruns, hm]
  | some m =>
    cases hd : m.deadline with
    | none => simp [FlakyDetector.should_abort_reruns, hm, hd]
    | some deadline => simp [FlakyDetector.should_abort_reruns, hm, hd]

/-- C6 witness state: a tracked test with deadline 10 and initial
duration 2. -/
def dW6 : FlakyDetector :=
  { mode := Mode.new
    context :=
      { budget_ratio_for_new_tests := 1/10
        budget_ratio_for_unhealthy_tests := 1/5
        existing_test_names := ["e1"]
        existing_tests_mean_duration_ms := 100
        unhealthy_test_names := []
        max_test_execution_count := 5
        max_test_name_length := 100
        min_budget_duration_ms := 0
        min_test_execution_count := 1 }
    test_metrics := [("t", { initial_call_duration := 2, deadline := some 10 })] }

/-- C6 witness: at time 9 the projected completion 11 passes deadline
10, so the reruns abort. -/
theorem should_abort_reruns_iff_witness :
    dW6.should_abort_reruns 9 "t" = true :=
  (should_abort_reruns_iff dW6 9 "t").mpr
    ⟨{ initial_call_duration := 2, deadline := some 10 }, 10, by decide, rfl,
      by norm_num [TestMetrics.initial_duration]⟩

/-! ### C7: existing tests are never tracked in mode new -/

/-- C7. In mode `new`, a report for a test listed in
`existing_test_names` is rejected by `try_fill_metrics_from_report`
without changing the detector state, and `get_rerun_count_for_test` for
that (untracked) test returns 0 with the state unchanged, regardless of
the test's duration. -/
theorem existing_test_never_allocated (d : FlakyDetector) (now : ℚ)
    (report : TestReport)
    (hmode : d.mode = Mode.new)
    (hin : report.nodeid ∈ d.context.existing_test_names)
    (habs : lookupKey report.nodeid d.test_metrics = none) :
    d.try_fill_metrics_from_report report = (false, d) ∧
    d.get_rerun_count_for_test now report.nodeid = (0, d) := by
  constructor
  · by_cases hout : report.outcome ∈ (["failed", "passed", "rerun"] : List String)
    · simp [FlakyDetector.try_fill_metrics_from_report, hout, hmode, hin]
    · simp [FlakyDetector.try_fill_metrics_from_report, hout]
  · simp [FlakyDetector.get_rerun_count_for_test, habs]

/-- C7 witness: a passing report for existing test `e1` in mode `new`. -/
theorem existing_test_never_allocated_witness :
    dW1.try_fill_metrics_from_report
        { nodeid := "e1", outcome := "passed", phase := "call", duration := 3 } =
      (false, dW1) ∧
    dW1.get_rerun_count_for_test 0 "e1" = (0, dW1) :=
  existing_test_never_allocated dW1 0
    { nodeid := "e1", outcome := "passed", phase := "call", duration := 3 }
    rfl (by decide) (by decide)

/-! ### C8: empty baseline is a fetch error in mode new -/

/-- C8. Fetching the context in mode `new` fails with an error when the
decoded context has an empty `existing_test_names` list, and every
successfully fetched context in mode `new` has a non-empty
`existing_test_names` list. -/
theorem fetch_context_validate_spec (mode : Mode)
    (result : FlakyDetectionContext) :
    (mode = Mode.new ∧ result.existing_test_names.length = 0 →
      fetch_context_validate mode result =
        Except.error "No existing tests found") ∧
    (∀ c, fetch_context_validate mode result = Except.ok c →
      mode = Mode.new → c.existing_test_names ≠ []) := by
  constructor
  · intro h
    simp only [fetch_context_validate]
    rw [if_pos h]
  · intro c hc hnew hnil
    unfold fetch_context_validate at hc
    by_cases h : mode = Mode.new ∧ result.existing_test_names.length = 0
    · rw [if_pos h] at hc
      exact Except.noConfusion hc
    · rw [if_neg h] at hc
      injection hc with hc
      exact h ⟨hnew, by rw [hc, hnil]; rfl⟩

/-- C8 witness context: an empty `existing_test_names` baseline. -/
def ctxC8 : FlakyDetectionContext :=
  { budget_ratio_for_new_tests := 1/10
    budget_ratio_for_unhealthy_tests := 1/5
    existing_test_names := []
    existing_tests_mean_duration_ms := 100
    unhealthy_test_names := []
    max_test_execution_count := 5
    max_test_name_length := 100
    min_budget_duration_ms := 0
    min_test_execution_count := 1 }

/-- C8 witness: mode `new` with an empty baseline is rejected. -/
theorem fetch_context_validate_spec_witness :
    fetch_context_validate Mode.new ctxC8 =
      Except.error "No existing tests found" :=
  (fetch_context_validate_spec Mode.new ctxC8).1 ⟨rfl, rfl⟩

/-! ### C10: divisor and sign safety of the live rerun computation -/

/-- C10 (amended). `_count_remaining_tests` always returns at least 1
(so `get_rerun_count_for_test` never divides by zero) and
`_get_duration_before_test_deadline` is clamped at the zero duration;
provided the context's `max_test_execution_count` is non-negative and
the tracked test's recorded initial duration is non-negative,
`get_rerun_count_for_test` returns a non-negative rerun count. -/
theorem get_rerun_count_for_test_safe (d : FlakyDetector) (now : ℚ)
    (test : String)
    (hmax : 0 ≤ d.context.max_test_execution_count)
    (hdur : ∀ m, lookupKey test d.test_metrics = some m →
      0 ≤ m.initial_duration) :
    1 ≤ d.count_remaining_tests ∧
    0 ≤ d.get_duration_before_test_deadline now test ∧
    0 ≤ (d.get_rerun_count_for_test now test).1 := by
  have hcount : 1 ≤ d.count_remaining_tests := le_max_right _ _
  have hdl : 0 ≤ d.get_duration_before_test_deadline now test := by
    simp only [FlakyDetector.get_duration_before_test_deadline]
    split
    · exact le_refl 0
    · exact le_max_right _ _
  refine ⟨hcount, hdl, ?_⟩
  simp only [FlakyDetector.get_rerun_count_for_test]
  cases hm : lookupKey test d.test_metrics with
  | none => exact le_refl 0
  | some m =>
    have hbudget : 0 ≤ d.get_duration_before_test_deadline now test /
        (d.count_remaining_tests : ℚ) := by
      apply div_nonneg hdl
      exact_mod_cast le_trans zero_le_one hcount
    have hinit : 0 ≤ m.initial_duration := hdur m hm
    simp only [FlakyDetector.get_normalized_rerun_count]
    by_cases hz : m.initial_duration = 0
    · rw [if_pos hz, min_self]
      split
      · exact le_refl 0
      · exact hmax
    · rw [if_neg hz]
      have htr : 0 ≤ ratTrunc ((d.get_duration_before_test_deadline now test /
          (d.count_remaining_tests : ℚ)) / m.initial_duration) :=
        ratTrunc_nonneg _ (div_nonneg hbudget hinit)
      split
      · exact le_refl 0
      · exact le_min htr hmax

/-- C10 counterexample state: the server-provided
`max_test_execution_count` is negative and a zero-duration test is
tracked with a deadline. -/
def dC10 : FlakyDetector :=
  { mode := Mode.new
    context :=
      { budget_ratio_for_new_tests := 1/10
        budget_ratio_for_unhealthy_tests := 1/5
        existing_test_names := ["e1"]
        existing_tests_mean_duration_ms := 100
        unhealthy_test_names := []
        max_test_execution_count := -2
        max_test_name_length := 100
        min_budget_duration_ms := 0
        min_test_execution_count := -5 }
    global_deadline := some 10
    test_metrics := [("t", { deadline := some 10 })] }

/-- C10 counterexample: with `max_test_execution_count = -2` and
`min_test_execution_count = -5`, the zero-duration test `t` is assigned
a negative rerun count. -/
theorem get_rerun_count_for_test_negative_cex :
    (dC10.get_rerun_count_for_test 0 "t").1 < 0 := by
  simp [dC10, FlakyDetector.get_rerun_count_for_test, lookupKey,
    FlakyDetector.get_duration_before_test_deadline,
    FlakyDetector.count_remaining_tests,
    FlakyDetector.get_normalized_rerun_count, TestMetrics.initial_duration,
    ratTrunc, max_def, min_def]

/-- C10 witness: the safety bounds at a concrete tracked test. -/
theorem get_rerun_count_for_test_safe_witness :
    1 ≤ dC4.count_remaining_tests ∧
    0 ≤ dC4.get_duration_before_test_deadline 0 "x" ∧
    0 ≤ (dC4.get_rerun_count_for_test 0 "x").1 :=
  get_rerun_count_for_test_safe dC4 0 "x" (by decide)
    (fun m hm => by
      simp [dC4, lookupKey] at hm
      subst hm
      norm_num [TestMetrics.initial_duration])

/-! ### C9: suspend / restore round-trip lemmas -/

/-- Erasing a key hides exactly that key from lookups. -/
theorem lookupNode_eraseNode {β : Type} (k q : ℕ) (l : List (ℕ × β)) :
    lookupNode q (eraseNode k l) = if q = k then none else lookupNode q l := by
  induction l with
  | nil => simp [eraseNode, lookupNode]
  | cons p ps ih =>
    by_cases hpk : p.1 = k
    · by_cases hqk : q = k
      · simp only [eraseNode, if_pos hpk]
        rw [ih]
        simp [hqk]
      · have hpq : p.1 ≠ q := fun h => hqk (hpk ▸ h).symm
        have hkq : k ≠ q := fun h => hqk h.symm
        simp [eraseNode, lookupNode, hpk, hqk, hpq, hkq, ih]
    · by_cases hpq : p.1 = q
      · have hqk : q ≠ k := fun h => hpk (hpq.trans h)
        simp [eraseNode, lookupNode, hpk, hpq, hqk]
      · simp [eraseNode, lookupNode, hpk, hpq, ih]

/-- Lookup distributes over appending: the left list wins. -/
theorem lookupNode_append {β : Type} (q : ℕ) (l1 l2 : List (ℕ × β)) :
    lookupNode q (l1 ++ l2) =
      match lookupNode q l1 with
      | some v => some v
      | none => lookupNode q l2 := by
  induction l1 with
  | nil => simp [lookupNode]
  | cons p ps ih =>
    by_cases h : p.1 = q
    · simp [lookupNode, h]
    · simp [lookupNode, h, ih]

/-- A lookup misses exactly when the key is not among the map's keys. -/
theorem lookupNode_eq_none_iff {β : Type} (q : ℕ) (l : List (ℕ × β)) :
    lookupNode q l = none ↔ q ∉ l.map Prod.fst := by
  induction l with
  | nil => simp [lookupNode]
  | cons p ps ih =>
    by_cases h : p.1 = q
    · simp [lookupNode, h]
    · simp [lookupNode, h, ih, Ne.symm h]

/-- Behaviour of the suspend loop: processed keys other than the item
are hidden from the stack and exposed, with their stack values, in the
suspended store; every other lookup is untouched.  Requires the snapshot
key list to be duplicate-free and none of its keys to be suspended
already. -/
theorem suspendLoop_spec {β : Type} (item : ℕ) (ks : List ℕ) :
    ∀ (stack suspended : List (ℕ × β)), ks.Nodup →
      (∀ k ∈ ks, lookupNode k suspended = none) →
      (∀ q, lookupNode q (suspendLoop item ks stack suspended).1 =
        if q ∈ ks ∧ q ≠ item then none else lookupNode q stack) ∧
      (∀ q, lookupNode q (suspendLoop item ks stack suspended).2 =
        if q ∈ ks ∧ q ≠ item then lookupNode q stack else lookupNode q suspended) := by
  induction ks with
  | nil =>
    intro stack suspended _ _
    constructor <;> intro q <;> simp [suspendLoop]
  | cons k rest ih =>
    intro stack suspended hnodup hfresh
    have hknotin : k ∉ rest := (List.nodup_cons.mp hnodup).1
    have hrestnodup : rest.Nodup := (List.nodup_cons.mp hnodup).2
    by_cases hki : k = item
    · subst hki
      have hrest := ih stack suspended hrestnodup
        (fun k' hk' => hfresh k' (List.mem_cons_of_mem _ hk'))
      constructor <;> intro q
      · rw [show suspendLoop k (k :: rest) stack suspended =
            suspendLoop k rest stack suspended by simp [suspendLoop]]
        rw [hrest.1 q]
        by_cases hq : q ∈ rest ∧ q ≠ k
        · rw [if_pos hq, if_pos ⟨List.mem_cons_of_mem _ hq.1, hq.2⟩]
        · rw [if_neg hq, if_neg ?_]
          rintro ⟨hmem, hne⟩
          rcases List.mem_cons.mp hmem with h | h
          · exact hne h
          · exact hq ⟨h, hne⟩
      · rw [show suspendLoop k (k :: rest) stack suspended =
            suspendLoop k rest stack suspended by simp [suspendLoop]]
        rw [hrest.2 q]
        by_cases hq : q ∈ rest ∧ q ≠ k
        · rw [if_pos hq, if_pos ⟨List.mem_cons_of_mem _ hq.1, hq.2⟩]
        · rw [if_neg hq, if_neg ?_]
          rintro ⟨hmem, hne⟩
          rcases List.mem_cons.mp hmem with h | h
          · exact hne h
          · exact hq ⟨h, hne⟩
    · have hkfresh : lookupNode k suspended = none :=
        hfresh k (List.mem_cons_self _ _)
      -- the updated suspended store after processing key `k`
      set suspended' :=
        match lookupNode k suspended with
        | some _ => suspended
        | none =>
          match lookupNode k stack with
          | some v => suspended ++ [(k, v)]
          | none => suspended with hsusp'
      have hstep : suspendLoop item (k :: rest) stack suspended =
          suspendLoop item rest (eraseNode k stack) suspended' := by
        rw [suspendLoop, if_neg hki]
      have hsusp'_lookup : ∀ q, q ≠ k →
          lookupNode q suspended' = lookupNode q suspended := by
        intro q hqk
        rw [hsusp']
        cases hks : lookupNode k suspended with
        | some v => rfl
        | none =>
          cases hkst : lookupNode k stack with
          | some v =>
            simp only
            rw [lookupNode_append]
            have hkq : k ≠ q := fun h => hqk h.symm
            cases hqs : lookupNode q suspended with
            | some w => rfl
            | none => simp [lookupNode, hkq]
          | none => rfl
      have hsusp'_k : lookupNode k suspended' = lookupNode k stack := by
        rw [hsusp', hkfresh]
        cases hkst : lookupNode k stack with
        | some v =>
          simp only
          rw [lookupNode_append, hkfresh]
          simp [lookupNode]
        | none => exact hkfresh
      have hfresh' : ∀ k' ∈ rest, lookupNode k' suspended' = none := by
        intro k' hk'
        have hne : k' ≠ k := fun h => hknotin (h ▸ hk')
        rw [hsusp'_lookup k' hne]
        exact hfresh k' (List.mem_cons_of_mem _ hk')
      have hrest := ih (eraseNode k stack) suspended' hrestnodup hfresh'
      constructor <;> intro q
      · rw [hstep, hrest.1 q]
        by_cases hqk : q = k
        · subst hqk
          rw [if_neg (fun h : q ∈ rest ∧ q ≠ item => hknotin h.1),
            lookupNode_eraseNode, if_pos rfl,
            if_pos ⟨List.mem_cons_self _ _, hki⟩]
        · rw [lookupNode_eraseNode, if_neg hqk]
          by_cases hq : q ∈ rest ∧ q ≠ item
          · rw [if_pos hq, if_pos ⟨List.mem_cons_of_mem _ hq.1, hq.2⟩]
          · rw [if_neg hq, if_neg ?_]
            rintro ⟨hmem, hne⟩
            rcases List.mem_cons.mp hmem with h | h
            · exact hqk h
            · exact hq ⟨h, hne⟩
      · rw [hstep, hrest.2 q]
        by_cases hqk : q = k
        · subst hqk
          rw [if_neg (fun h : q ∈ rest ∧ q ≠ item => hknotin h.1), hsusp'_k,
            if_pos ⟨List.mem_cons_self _ _, hki⟩]
        · rw [lookupNode_eraseNode, if_neg hqk, hsusp'_lookup q hqk]
          by_cases hq : q ∈ rest ∧ q ≠ item
          · rw [if_pos hq, if_pos ⟨List.mem_cons_of_mem _ hq.1, hq.2⟩]
          · rw [if_neg hq, if_neg ?_]
            rintro ⟨hmem, hne⟩
            rcases List.mem_cons.mp hmem with h | h
            · exact hqk h
            · exact hq ⟨h, hne⟩

/-- Lookup after the overriding map of `dictUpdate`: keys present in the
stack resolve to the suspended value when there is one. -/
theorem lookupNode_map_override {β : Type} (q : ℕ)
    (stack suspended : List (ℕ × β)) :
    lookupNode q (stack.map (fun p =>
        match lookupNode p.1 suspended with
        | some v => (p.1, v)
        | none => p)) =
      match lookupNode q stack with
      | some v =>
        match lookupNode q suspended with
        | some w => some w
        | none => some v
      | none => none := by
  induction stack with
  | nil => simp [lookupNode]
  | cons p ps ih =>
    by_cases h : p.1 = q
    · subst h
      cases hs : lookupNode p.1 suspended <;> simp [lookupNode, hs]
    · cases hs : lookupNode p.1 suspended <;> simp [lookupNode, h, hs, ih]

/-- Lookup in the filtered tail of `dictUpdate`: suspended entries
survive the filter exactly when their key is absent from the stack. -/
theorem lookupNode_filter_none {β : Type} (q : ℕ)
    (stack suspended : List (ℕ × β)) :
    lookupNode q (suspended.filter (fun p => (lookupNode p.1 stack).isNone)) =
      if (lookupNode q stack).isNone then lookupNode q suspended else none := by
  induction suspended with
  | nil => simp [lookupNode]
  | cons p ps ih =>
    by_cases h : p.1 = q
    · subst h
      cases hst : lookupNode p.1 stack with
      | none => simp [List.filter_cons, lookupNode, hst, ih]
      | some v => simp [List.filter_cons, lookupNode, hst, ih]
    · cases hpst : lookupNode p.1 stack with
      | none => simp [List.filter_cons, lookupNode, h, hpst, ih]
      | some v => simp [List.filter_cons, lookupNode, h, hpst, ih]

/-- `dict.update` semantics of `dictUpdate`: the suspended store wins on
common keys, stack-only keys keep their value, suspended-only keys are
added. -/
theorem lookupNode_dictUpdate {β : Type} (q : ℕ)
    (stack suspended : List (ℕ × β)) :
    lookupNode q (dictUpdate stack suspended) =
      match lookupNode q stack with
      | some v =>
        match lookupNode q suspended with
        | some w => some w
        | none => some v
      | none => lookupNode q suspended := by
  cases hst : lookupNode q stack with
  | some v =>
    rw [dictUpdate, lookupNode_append, lookupNode_map_override, hst]
    cases hsus : lookupNode q suspended <;> rfl
  | none =>
    rw [dictUpdate, lookupNode_append, lookupNode_map_override, hst]
    rw [lookupNode_filter_none, hst]
    rfl

/-- C9. When the setup-state stack has duplicate-free keys, contains the
test item's own entry, and the suspended store is empty,
`suspend_item_finalizers` removes exactly the entries for scope nodes
other than the item (recording each removed entry, keyed by its scope
node, in the suspended store), and a subsequent
`restore_item_finalizers` yields a stack whose every lookup agrees with
the original stack and an empty suspended store. -/
theorem suspend_restore_round_trip {β : Type} (item : ℕ) (s : SetupStacks β)
    (hnodup : (s.stack.map Prod.fst).Nodup)
    (hitem : (lookupNode item s.stack).isSome)
    (hsusp : s.suspended = []) :
    (∀ q, lookupNode q (suspend_item_finalizers item s).stack =
      if q = item then lookupNode q s.stack else none) ∧
    (∀ q, lookupNode q (suspend_item_finalizers item s).suspended =
      if q = item then none else lookupNode q s.stack) ∧
    (∀ q, lookupNode q
        (restore_item_finalizers (suspend_item_finalizers item s)).stack =
      lookupNode q s.stack) ∧
    (restore_item_finalizers (suspend_item_finalizers item s)).suspended = [] := by
  obtain ⟨v, hv⟩ := Option.isSome_iff_exists.mp hitem
  have hsusp_def : suspend_item_finalizers item s =
      { stack := (suspendLoop item (s.stack.map Prod.fst) s.stack s.suspended).1
        suspended := (suspendLoop item (s.stack.map Prod.fst) s.stack s.suspended).2 } := by
    rw [suspend_item_finalizers, hv]
  have hfresh : ∀ k ∈ s.stack.map Prod.fst, lookupNode k s.suspended = none := by
    intro k _
    rw [hsusp]
    rfl
  have hspec := suspendLoop_spec item (s.stack.map Prod.fst) s.stack s.suspended
    hnodup hfresh
  have hmem : ∀ q : ℕ, q ∉ s.stack.map Prod.fst →
      lookupNode q s.stack = none :=
    fun q hq => (lookupNode_eq_none_iff q s.stack).mpr hq
  have hstack1 : ∀ q, lookupNode q (suspend_item_finalizers item s).stack =
      if q = item then lookupNode q s.stack else none := by
    intro q
    rw [hsusp_def]
    rw [hspec.1 q]
    by_cases hqi : q = item
    · subst hqi
      rw [if_pos rfl, if_neg (fun h : q ∈ _ ∧ q ≠ q => h.2 rfl)]
    · rw [if_neg hqi]
      by_cases hqmem : q ∈ s.stack.map Prod.fst
      · rw [if_pos ⟨hqmem, hqi⟩]
      · rw [if_neg (fun h => hqmem h.1)]
        exact hmem q hqmem
  have hstore1 : ∀ q, lookupNode q (suspend_item_finalizers item s).suspended =
      if q = item then none else lookupNode q s.stack := by
    intro q
    rw [hsusp_def]
    rw [hspec.2 q]
    by_cases hqi : q = item
    · subst hqi
      rw [if_pos rfl, if_neg (fun h : q ∈ _ ∧ q ≠ q => h.2 rfl), hsusp]
      rfl
    · rw [if_neg hqi]
      by_cases hqmem : q ∈ s.stack.map Prod.fst
      · rw [if_pos ⟨hqmem, hqi⟩]
      · rw [if_neg (fun h => hqmem h.1), hsusp]
        exact (hmem q hqmem).symm
  refine ⟨hstack1, hstore1, ?_, rfl⟩
  intro q
  show lookupNode q (dictUpdate (suspend_item_finalizers item s).stack
    (suspend_item_finalizers item s).suspended) = lookupNode q s.stack
  rw [lookupNode_dictUpdate]
  by_cases hqi : q = item
  · subst hqi
    rw [hstack1 q, hstore1 q, if_pos rfl, if_pos rfl, hv]
  · rw [hstack1 q, hstore1 q, if_neg hqi, if_neg hqi]

/-- C9 witness stacks: item 2 sits between a module scope 1 and a
session scope 3. -/
def sW9 : SetupStacks ℕ :=
  { stack := [(1, 10), (2, 20), (3, 30)], suspended := [] }

/-- C9 witness: at the concrete stacks, suspension hides scope 3,
restoring brings it back, and the suspended store ends empty. -/
theorem suspend_restore_round_trip_witness :
    lookupNode 3 (suspend_item_finalizers 2 sW9).stack = none ∧
    lookupNode 3 (suspend_item_finalizers 2 sW9).suspended = some 30 ∧
    lookupNode 3 (restore_item_finalizers (suspend_item_finalizers 2 sW9)).stack =
      some 30 ∧
    (restore_item_finalizers (suspend_item_finalizers 2 sW9)).suspended = [] := by
  obtain ⟨h1, h2, h3, h4⟩ :=
    suspend_restore_round_trip 2 sW9 (by decide) (by decide) rfl
  refine ⟨?_, ?_, ?_, h4⟩
  · simpa using h1 3
  · have := h2 3
    simp only [if_neg (by decide : ¬(3 : ℕ) = 2)] at this
    rw [this]
    decide
  · rw [h3 3]
    decide

end PytestMergify
